import Mathlib

/-!
A verification development for the `poly` HTTP adapter package.

The package turns an arbitrary Go function into an `http.Handler`:
`newHandler` (handler.go) analyzes the function signature once into a
binding plan, and `handler.ServeHTTP` executes the plan per request.
`KeyValueParams.ParsePath` (key_value_params.go) parses slash-delimited
key/value paths.  This file shallowly embeds those functions and proves
properties about them.

Modelling conventions:
* Go `reflect.Type` values are embedded as `GoType`; `reflect.Kind` as `Kind`.
* The external `set.Mapper` collaborator is embedded by its contract: a
  function from a type to the list of keys it maps for that type.
* The external `call` collaborator is embedded by its contract:
  `Func` carries `InTypes`/`OutTypes`; `PruneIn` selects arguments of the
  given types; calling the function yields a `CallResult`.
* Side effects on the `http.ResponseWriter` and mapper writes are embedded
  as an explicit trace (`ServeResult`).
* `fmt.Fprintf` applied to a format string with no variadic operands is
  embedded as `fprintfNoArgs` (Go's documented behavior: `%%` emits `%`,
  any other verb emits `%!<verb>(MISSING)`, a dangling `%` emits
  `%!(NOVERB)`); formats containing `*` or `[` are outside the model.
-/

namespace PolySpec

/-- Go reflect.Kind, restricted to the kinds the package mentions. -/
inductive Kind where
  | bool | int | int8 | int16 | int32 | int64
  | uint | uint8 | uint16 | uint32 | uint64 | uintptr
  | float32 | float64 | complex64 | complex128
  | array | chan | func | interface | map | ptr | slice | string | struct
deriving DecidableEq, Repr

/-- Go reflect.Type: either a non-pointer type with its kind and name, or a
pointer type.  `GoType.ptr` always has kind `Kind.ptr`. -/
inductive GoType where
  | named (k : Kind) (name : String) : GoType
  | ptr (elem : GoType) : GoType
deriving DecidableEq, Repr

/-- The reflect.Kind of a type (Go `T.Kind()`). -/
def GoType.kind : GoType → Kind
  | .named k _ => k
  | .ptr _ => Kind.ptr

/-- Go `T.Kind() == reflect.Ptr && T.Elem().Kind() == reflect.Struct`. -/
def ptrToStruct : GoType → Bool
  | GoType.ptr e => e.kind = Kind.struct
  | _ => false

/-- The package-level value argTypeRequest = reflect.TypeOf((*http.Request)(nil)),
i.e. the type *http.Request. -/
def argTypeRequest : GoType := GoType.ptr (GoType.named Kind.struct "http.Request")

/-- The package-level value argTypeResponseWriter, the interface type
http.ResponseWriter. -/
def argTypeResponseWriter : GoType := GoType.named Kind.interface "http.ResponseWriter"

/-- External collaborator set.Mapper, embedded by its contract: `mapKeys T`
is the key list `Mapper.Map(T).Keys`. -/
structure Mapper where
  mapKeys : GoType → List String

/-- The observable request data `ServeHTTP` consumes.  `bodyRead` is the
outcome of reading the whole body into memory (`Except.error` models a read
failure); `parseFormOk`/`postForm` model `req.ParseForm` and `req.PostForm`;
`query` models `req.URL.Query()`. -/
structure Request where
  contentType : String
  bodyRead : Except String String
  parseFormOk : Bool
  postForm : List (String × List String)
  query : List (String × List String)

/-- The Poly configuration (poly.go): three optional mappers and an optional
path-param provider. -/
structure Poly where
  FormMapper : Option Mapper
  PathMapper : Option Mapper
  QueryMapper : Option Mapper
  PathParamer : Option (Request → String → String)

/-- External collaborator call.Func, embedded by its contract: the
function's parameter and return types in declared order. -/
structure Func where
  InTypes : List GoType
  OutTypes : List GoType

/-- Go `F.NumIn`. -/
def Func.NumIn (f : Func) : Nat := f.InTypes.length

/-- Go `F.NumOut`. -/
def Func.NumOut (f : Func) : Nat := f.OutTypes.length

/-- External collaborator call.Arg: an argument index and its type. -/
structure Arg where
  N : Nat
  T : GoType
deriving DecidableEq, Repr

/-- External collaborator `call.Func.PruneIn`, embedded by its contract:
the arguments (index, type) whose type is one of the given types. -/
def Func.PruneIn (f : Func) (ts : List GoType) : List Arg :=
  f.InTypes.enum.filterMap fun p => if p.2 ∈ ts then some ⟨p.1, p.2⟩ else none

/-- pathParams (handler.go): a handler argument index and the path keys its
type exposes. -/
structure pathParams where
  N : Nat
  Keys : List String
deriving DecidableEq, Repr

/-- The handler structure (handler.go): the binding plan built by
`newHandler`. -/
structure handler where
  Poly : Poly
  Fn : Func
  FnHasReturn : Bool
  PassThru : List Arg
  Form : List Nat
  JSON : List Nat
  Path : List pathParams
  Query : List Nat

/-- The whitelist of first-return kinds in newHandler's switch statement
(handler.go lines 107-131). -/
def payloadKinds : List Kind :=
  [Kind.bool,
   Kind.float32, Kind.float64,
   Kind.int, Kind.int8, Kind.int16, Kind.int32, Kind.int64,
   Kind.uint, Kind.uint8, Kind.uint16, Kind.uint32, Kind.uint64,
   Kind.string,
   Kind.ptr,
   Kind.array, Kind.slice,
   Kind.map,
   Kind.struct]

/-- The `if fn.NumOut >= 1 { switch fn.OutTypes[0].Kind() ... }` block of
newHandler: FnHasReturn is set iff the first return kind is whitelisted. -/
def fnHasReturn (f : Func) : Bool :=
  match f.OutTypes with
  | [] => false
  | T :: _ => decide (T.kind ∈ payloadKinds)

/-- The FormMapper block of newHandler's loop body for argument `k` of type
`T`: append `k` to Form when the mapper maps at least one key for `T`. -/
def addForm (p : Poly) (k : Nat) (T : GoType) (h : handler) : handler :=
  match p.FormMapper with
  | some m => if 0 < (m.mapKeys T).length then { h with Form := h.Form ++ [k] } else h
  | none => h

/-- The PathMapper block of newHandler's loop body. -/
def addPath (p : Poly) (k : Nat) (T : GoType) (h : handler) : handler :=
  match p.PathMapper with
  | some m =>
      if 0 < (m.mapKeys T).length then
        { h with Path := h.Path ++ [⟨k, m.mapKeys T⟩] } else h
  | none => h

/-- The QueryMapper block of newHandler's loop body. -/
def addQuery (p : Poly) (k : Nat) (T : GoType) (h : handler) : handler :=
  match p.QueryMapper with
  | some m => if 0 < (m.mapKeys T).length then { h with Query := h.Query ++ [k] } else h
  | none => h

/-- The struct / ptr-to-struct block of newHandler's loop body: such
arguments are appended to JSON. -/
def addJSON (k : Nat) (T : GoType) (h : handler) : handler :=
  if T.kind = Kind.struct then { h with JSON := h.JSON ++ [k] }
  else if ptrToStruct T then { h with JSON := h.JSON ++ [k] }
  else h

/-- One iteration of newHandler's `for k, T := range fn.InTypes` loop: the
request type and interface kinds are skipped (`continue`), otherwise the
four blocks run in order. -/
def classifyArg (p : Poly) (k : Nat) (T : GoType) (h : handler) : handler :=
  if T = argTypeRequest then h
  else if T.kind = Kind.interface then h
  else addJSON k T (addQuery p k T (addPath p k T (addForm p k T h)))

/-- newHandler's loop over the enumerated input types, starting at index
`k`. -/
def classifyArgs (p : Poly) (k : Nat) : List GoType → handler → handler
  | [], h => h
  | T :: rest, h => classifyArgs p (k + 1) rest (classifyArg p k T h)

/-- newHandler (handler.go lines 53-134). -/
def newHandler (p : Poly) (fn : Func) : handler :=
  let rv : handler :=
    { Poly := p, Fn := fn, FnHasReturn := false
      PassThru := fn.PruneIn [argTypeRequest, argTypeResponseWriter]
      Form := [], JSON := [], Path := [], Query := [] }
  let rv := classifyArgs p 0 fn.InTypes rv
  { rv with FnHasReturn := fnHasReturn fn }

/-- The first return value of calling Fn, as consumed by ServeHTTP's
`switch value := result.Values[0].(type)`: either a Go string (the `case
string` arm) or any other value (the `default` arm).  A non-string value
carries the outcome `json.Marshal` would produce for it (`Except.error`
models a marshal failure with the error's message). -/
inductive Payload where
  | str (s : String) : Payload
  | other (marshal : Except String String) : Payload

/-- The outcome of `h.Fn.Call(args)` (external `call` collaborator):
`error` is `result.Error` (the authoritative error return, `none` when nil)
and `value0` is `result.Values[0]` (meaningful only when the function has
returns). -/
structure CallResult where
  error : Option String
  value0 : Payload

/-- The single response ServeHTTP writes.  `httpError msg status` models
`http.Error(w, msg, status)`; the payload variants carry the Content-Type
header value and the body bytes; `empty` models writing nothing. -/
inductive HttpOut where
  | httpError (msg : String) (status : Nat) : HttpOut
  | payloadText (contentType : String) (body : String) : HttpOut
  | payloadJSON (contentType : String) (body : String) : HttpOut
  | empty : HttpOut
deriving DecidableEq, Repr

/-- Characters Go's fmt format scanner consumes between `%` and the verb:
flags `+ - # space`, width and precision digits and the dot.  (Formats
using `*` or `[` are outside this model.) -/
def fprintfFlagChar (c : Char) : Bool :=
  c == '+' || c == '-' || c == '#' || c == ' ' || c == '.' || c.isDigit

/-- Structural worker for `fprintfNoArgs`; `fuel` bounds the recursion and
is always at least the input length at the call sites. -/
def fprintfLoop : Nat → List Char → List Char
  | 0, rest => rest
  | _ + 1, [] => []
  | fuel + 1, '%' :: rest =>
    match rest.dropWhile fprintfFlagChar with
    | [] => "%!(NOVERB)".data
    | '%' :: rest2 => '%' :: fprintfLoop fuel rest2
    | c :: rest2 => "%!".data ++ (c :: "(MISSING)".data) ++ fprintfLoop fuel rest2
  | fuel + 1, c :: rest => c :: fprintfLoop fuel rest

/-- Go `fmt.Fprintf(w, format)` with no variadic operands: the bytes it
writes.  Literal characters pass through, `%%` emits `%`, any other verb
emits `%!<verb>(MISSING)` because no operand is available, and a `%` with
no verb emits `%!(NOVERB)`. -/
def fprintfNoArgs (format : String) : String :=
  (fprintfLoop format.data.length format.data).asString

/-- The response-writing tail of ServeHTTP (handler.go lines 205-238):
`result.Error` takes precedence with a 500; otherwise, when the plan has a
payload return, a string payload is written verbatim as text
(`fmt.Fprint`), and any other payload is JSON-marshaled — marshal failure
is a 500 with the marshal error's message, success sets the JSON content
type and writes `fmt.Fprintf(w, string(blob))`. -/
def encodeResponse (h : handler) (res : CallResult) : HttpOut :=
  match res.error with
  | some e => HttpOut.httpError e 500
  | none =>
    if h.FnHasReturn then
      match res.value0 with
      | Payload.str s => HttpOut.payloadText "text/plain; charset=utf-8" s
      | Payload.other m =>
        match m with
        | Except.error e => HttpOut.httpError e 500
        | Except.ok blob => HttpOut.payloadJSON "application/json" (fprintfNoArgs blob)
    else HttpOut.empty

/-- The `for _, n := range h.JSON` decode loop: `ok n bytes` tells whether
`json.Unmarshal(bytes, args.Pointers[n])` succeeds.  Returns the decodes
performed in order (each against the same full `bytes`) and whether all
succeeded; the loop stops at the first failure. -/
def decodeJSONTargets (ok : Nat → String → Bool) (bytes : String) : List Nat → List (Nat × String) × Bool
  | [] => ([], true)
  | n :: rest =>
    if ok n bytes then
      let r := decodeJSONTargets ok bytes rest
      ((n, bytes) :: r.1, r.2)
    else ([(n, bytes)], false)

/-- The observable trace of one ServeHTTP execution: the pass-through slots
set, the (index, key, value) writes done through the path mapper, the query
and form multi-value writes, the JSON decodes performed (argument index and
the raw bytes decoded into it), whether `h.Fn.Call` was reached, and the
response written. -/
structure ServeResult where
  passThruSet : List (Nat × GoType)
  pathWrites : List (Nat × List (String × String))
  queryWrites : List (Nat × List (String × List String))
  jsonDecodes : List (Nat × String)
  formWrites : List (Nat × List (String × List String))
  invoked : Bool
  out : HttpOut
deriving Repr

/-- The outcome of ServeHTTP's body-binding step together with what follows
it: the JSON decodes and form writes performed, whether the invocation was
reached, and the response written. -/
structure BodyOutcome where
  jsonDecodes : List (Nat × String)
  formWrites : List (Nat × List (String × List String))
  invoked : Bool
  out : HttpOut
deriving Repr

/-- The `Unmarshal body` section of ServeHTTP (handler.go lines 174-202)
followed by the call and response encoding: body binding runs only when the
Content-Type header exactly equals one of the two media-type literals and
the corresponding target list is non-nil; each failure short-circuits to an
`http.Error` with status 400 without calling the function. -/
def bodyStep (h : handler) (req : Request) (jsonDecodeOk : Nat → String → Bool)
    (res : CallResult) : BodyOutcome :=
  let tryForm := !h.Form.isEmpty && req.contentType == "application/x-www-form-urlencoded"
  let tryJSON := !h.JSON.isEmpty && req.contentType == "application/json"
  if tryJSON then
    match req.bodyRead with
    | Except.error _ => ⟨[], [], false, HttpOut.httpError "reading body" 400⟩
    | Except.ok bytes =>
      let d := decodeJSONTargets jsonDecodeOk bytes h.JSON
      if d.2 then ⟨d.1, [], true, encodeResponse h res⟩
      else ⟨d.1, [], false, HttpOut.httpError "decoding json" 400⟩
  else if tryForm then
    if req.parseFormOk then
      ⟨[], h.Form.map fun n => (n, req.postForm), true, encodeResponse h res⟩
    else ⟨[], [], false, HttpOut.httpError "parse form" 400⟩
  else ⟨[], [], true, encodeResponse h res⟩

/-- ServeHTTP (handler.go lines 136-239).  `jsonDecodeOk` abstracts
`json.Unmarshal` success per target argument; `res` abstracts the outcome
of calling the wrapped function. -/
def serveHTTP (h : handler) (req : Request) (jsonDecodeOk : Nat → String → Bool)
    (res : CallResult) : ServeResult :=
  let passThruSet := h.PassThru.map fun a => (a.N, a.T)
  let pathWrites :=
    match h.Poly.PathParamer with
    | some pp => h.Path.map fun prm => (prm.N, prm.Keys.map fun key => (key, pp req key))
    | none => []
  let queryWrites :=
    if h.Query.isEmpty then [] else h.Query.map fun n => (n, req.query)
  let b := bodyStep h req jsonDecodeOk res
  ⟨passThruSet, pathWrites, queryWrites, b.jsonDecodes, b.formWrites, b.invoked, b.out⟩

/-- The http.Handler value `Poly.Handler` returns: either the function
adapted directly as `http.HandlerFunc` (the fast path) or a `handler`
running the binding plan. -/
inductive HttpHandler where
  | direct (fn : Func) : HttpHandler
  | wrapped (h : handler) : HttpHandler

/-- What serving one request through an `HttpHandler` does: the direct
adapter calls the function with the response-writer and request it was
given, unchanged (`w` is an opaque token for the response writer); the
wrapped form runs the plan of its `handler`. -/
inductive ServeEvent where
  | calledDirect (fn : Func) (w : Nat) (req : Request) : ServeEvent
  | ranPlan (h : handler) : ServeEvent

/-- Dispatch of `ServeHTTP` over the two `HttpHandler` shapes. -/
def dispatchServe : HttpHandler → Nat → Request → ServeEvent
  | HttpHandler.direct fn, w, req => ServeEvent.calledDirect fn w req
  | HttpHandler.wrapped h, _, _ => ServeEvent.ranPlan h

/-- Poly.Handler (poly.go lines 29-44) for an ordinary function input (the
`http.HandlerFunc` / `http.Handler` type-switch arms apply only to values
already of those named types and are not modelled).  The fast-path guard
`F.NumIn == 2 && F.InTypes[0] == argTypeResponseWriter && F.InTypes[1] ==
argTypeRequest` is written as equality with the two-element list. -/
def Poly.Handler (p : Poly) (fn : Func) : HttpHandler :=
  if fn.InTypes = [argTypeResponseWriter, argTypeRequest] then HttpHandler.direct fn
  else HttpHandler.wrapped (newHandler p fn)

/-- Go map assignment `rv[k] = v` on a map represented as an association
list without duplicate keys: replace the value at an existing key in place,
otherwise append the new entry. -/
def mapInsert (m : List (String × String)) (k v : String) : List (String × String) :=
  if m.any fun q => q.1 == k then m.map fun q => if q.1 == k then (k, v) else q
  else m ++ [(k, v)]

/-- The loop body of KeyValueParams.ParsePath (key_value_params.go lines
33-67), recursing on a fuel that bounds the iteration count.  Each Go
iteration: skip leading slashes (stop if nothing is left); scan the key
(a dangling key maps to the empty string); skip slashes; scan the value
and assign it; continue with the rest of the path.  Every iteration
consumes at least one character, so fuel = input length always suffices. -/
def parsePathLoop : Nat → List Char → List (String × String) → List (String × String)
  | 0, _, acc => acc
  | fuel + 1, p, acc =>
    let p1 := p.dropWhile fun c => c == '/'
    if p1.isEmpty then acc
    else
      let key := p1.takeWhile fun c => c != '/'
      let rest := p1.dropWhile fun c => c != '/'
      if rest.isEmpty then mapInsert acc key.asString ""
      else
        let rest2 := rest.dropWhile fun c => c == '/'
        let val := rest2.takeWhile fun c => c != '/'
        let rest3 := rest2.dropWhile fun c => c != '/'
        let acc2 := mapInsert acc key.asString val.asString
        if rest3.isEmpty then acc2
        else parsePathLoop fuel rest3 acc2

/-- KeyValueParams.ParsePath: parse a slash-delimited key/value path into a
map. -/
def ParsePath (p : String) : List (String × String) :=
  parsePathLoop p.data.length p.data []

/-- The maximal nonempty slash-free segments of a path, in order, with the
same fuel discipline as `parsePathLoop`. -/
def pathTokensLoop : Nat → List Char → List (List Char)
  | 0, _ => []
  | fuel + 1, p =>
    let p1 := p.dropWhile fun c => c == '/'
    if p1.isEmpty then []
    else (p1.takeWhile fun c => c != '/') :: pathTokensLoop fuel (p1.dropWhile fun c => c != '/')

/-- The maximal nonempty slash-free segments of a path, in order. -/
def pathTokens (p : List Char) : List (List Char) :=
  pathTokensLoop p.length p

/-- Reading a token list as alternating key/value pairs into a map; a
dangling final key maps to the empty string. -/
def fromTokens (acc : List (String × String)) : List (List Char) → List (String × String)
  | [] => acc
  | [k] => mapInsert acc k.asString ""
  | k :: v :: rest => fromTokens (mapInsert acc k.asString v.asString) rest


/-- Default type used with `List.getD` when indexing a parameter list;
never reached at in-bounds indices. -/
def dfltType : GoType := GoType.named Kind.chan ""

/-- A Poly with no mappers and no path-param provider. -/
def polyNone : Poly := ⟨none, none, none, none⟩

/-- Exactly when newHandler's loop adds an argument of type `T` to `Form`:
the argument is not skipped and the form mapper exists and maps keys. -/
def formEligible (p : Poly) (T : GoType) : Prop :=
  T ≠ argTypeRequest ∧ T.kind ≠ Kind.interface ∧
    ∃ m, p.FormMapper = some m ∧ 0 < (m.mapKeys T).length

/-- Exactly when newHandler's loop adds an argument of type `T` to `Path`. -/
def pathEligible (p : Poly) (T : GoType) : Prop :=
  T ≠ argTypeRequest ∧ T.kind ≠ Kind.interface ∧
    ∃ m, p.PathMapper = some m ∧ 0 < (m.mapKeys T).length

/-- Exactly when newHandler's loop adds an argument of type `T` to `Query`. -/
def queryEligible (p : Poly) (T : GoType) : Prop :=
  T ≠ argTypeRequest ∧ T.kind ≠ Kind.interface ∧
    ∃ m, p.QueryMapper = some m ∧ 0 < (m.mapKeys T).length

/-- Exactly when newHandler's loop adds an argument of type `T` to `JSON`:
the argument is not skipped and `T` is a struct or pointer to struct. -/
def jsonEligible (T : GoType) : Prop :=
  T ≠ argTypeRequest ∧ T.kind ≠ Kind.interface ∧
    (T.kind = Kind.struct ∨ ptrToStruct T = true)

theorem addForm_JSON (p : Poly) (k : Nat) (T : GoType) (h : handler) :
    (addForm p k T h).JSON = h.JSON := by
  unfold addForm
  split
  · split <;> rfl
  · rfl

theorem addForm_Query (p : Poly) (k : Nat) (T : GoType) (h : handler) :
    (addForm p k T h).Query = h.Query := by
  unfold addForm
  split
  · split <;> rfl
  · rfl

theorem addForm_Path (p : Poly) (k : Nat) (T : GoType) (h : handler) :
    (addForm p k T h).Path = h.Path := by
  unfold addForm
  split
  · split <;> rfl
  · rfl

theorem addPath_JSON (p : Poly) (k : Nat) (T : GoType) (h : handler) :
    (addPath p k T h).JSON = h.JSON := by
  unfold addPath
  split
  · split <;> rfl
  · rfl

theorem addPath_Form (p : Poly) (k : Nat) (T : GoType) (h : handler) :
    (addPath p k T h).Form = h.Form := by
  unfold addPath
  split
  · split <;> rfl
  · rfl

theorem addPath_Query (p : Poly) (k : Nat) (T : GoType) (h : handler) :
    (addPath p k T h).Query = h.Query := by
  unfold addPath
  split
  · split <;> rfl
  · rfl

theorem addQuery_JSON (p : Poly) (k : Nat) (T : GoType) (h : handler) :
    (addQuery p k T h).JSON = h.JSON := by
  unfold addQuery
  split
  · split <;> rfl
  · rfl

theorem addQuery_Form (p : Poly) (k : Nat) (T : GoType) (h : handler) :
    (addQuery p k T h).Form = h.Form := by
  unfold addQuery
  split
  · split <;> rfl
  · rfl

theorem addQuery_Path (p : Poly) (k : Nat) (T : GoType) (h : handler) :
    (addQuery p k T h).Path = h.Path := by
  unfold addQuery
  split
  · split <;> rfl
  · rfl

theorem addJSON_Form (k : Nat) (T : GoType) (h : handler) :
    (addJSON k T h).Form = h.Form := by
  unfold addJSON
  split
  · rfl
  · split <;> rfl

theorem addJSON_Path (k : Nat) (T : GoType) (h : handler) :
    (addJSON k T h).Path = h.Path := by
  unfold addJSON
  split
  · rfl
  · split <;> rfl

theorem addJSON_Query (k : Nat) (T : GoType) (h : handler) :
    (addJSON k T h).Query = h.Query := by
  unfold addJSON
  split
  · rfl
  · split <;> rfl

theorem addForm_Form_mem (p : Poly) (k : Nat) (T : GoType) (h : handler) (x : Nat) :
    x ∈ (addForm p k T h).Form ↔
      x ∈ h.Form ∨ (x = k ∧ ∃ m, p.FormMapper = some m ∧ 0 < (m.mapKeys T).length) := by
  unfold addForm
  rcases hm : p.FormMapper with _ | m
  · simp [hm]
  · simp only [hm]
    split
    · next hlen => simp [hlen]
    · next hlen => simp [hlen]

theorem addPath_PathN_mem (p : Poly) (k : Nat) (T : GoType) (h : handler) (x : Nat) :
    x ∈ (addPath p k T h).Path.map pathParams.N ↔
      x ∈ h.Path.map pathParams.N ∨
        (x = k ∧ ∃ m, p.PathMapper = some m ∧ 0 < (m.mapKeys T).length) := by
  unfold addPath
  rcases hm : p.PathMapper with _ | m
  · simp [hm]
  · simp only [hm]
    split
    · next hlen => simp [hlen, or_comm, eq_comm]
    · next hlen => simp [hlen]

theorem addQuery_Query_mem (p : Poly) (k : Nat) (T : GoType) (h : handler) (x : Nat) :
    x ∈ (addQuery p k T h).Query ↔
      x ∈ h.Query ∨ (x = k ∧ ∃ m, p.QueryMapper = some m ∧ 0 < (m.mapKeys T).length) := by
  unfold addQuery
  rcases hm : p.QueryMapper with _ | m
  · simp [hm]
  · simp only [hm]
    split
    · next hlen => simp [hlen]
    · next hlen => simp [hlen]

theorem addJSON_JSON_mem (k : Nat) (T : GoType) (h : handler) (x : Nat) :
    x ∈ (addJSON k T h).JSON ↔
      x ∈ h.JSON ∨ (x = k ∧ (T.kind = Kind.struct ∨ ptrToStruct T = true)) := by
  unfold addJSON
  by_cases h1 : T.kind = Kind.struct
  · simp [h1]
  · by_cases h2 : ptrToStruct T = true <;> simp [h1, h2]

theorem classifyArg_Form_mem (p : Poly) (k : Nat) (T : GoType) (h : handler) (x : Nat) :
    x ∈ (classifyArg p k T h).Form ↔ x ∈ h.Form ∨ (x = k ∧ formEligible p T) := by
  unfold classifyArg formEligible
  by_cases h1 : T = argTypeRequest
  · simp [h1]
  · by_cases h2 : T.kind = Kind.interface
    · simp [h1, h2]
    · simp only [if_neg h1, if_neg h2]
      rw [addJSON_Form, addQuery_Form, addPath_Form, addForm_Form_mem]
      simp [h1, h2]

theorem classifyArg_Query_mem (p : Poly) (k : Nat) (T : GoType) (h : handler) (x : Nat) :
    x ∈ (classifyArg p k T h).Query ↔ x ∈ h.Query ∨ (x = k ∧ queryEligible p T) := by
  unfold classifyArg queryEligible
  by_cases h1 : T = argTypeRequest
  · simp [h1]
  · by_cases h2 : T.kind = Kind.interface
    · simp [h1, h2]
    · simp only [if_neg h1, if_neg h2]
      rw [addJSON_Query, addQuery_Query_mem, addPath_Query, addForm_Query]
      simp [h1, h2]

theorem classifyArg_PathN_mem (p : Poly) (k : Nat) (T : GoType) (h : handler) (x : Nat) :
    x ∈ (classifyArg p k T h).Path.map pathParams.N ↔
      x ∈ h.Path.map pathParams.N ∨ (x = k ∧ pathEligible p T) := by
  unfold classifyArg pathEligible
  by_cases h1 : T = argTypeRequest
  · simp [h1]
  · by_cases h2 : T.kind = Kind.interface
    · simp [h1, h2]
    · simp only [if_neg h1, if_neg h2]
      rw [addJSON_Path, addQuery_Path, addPath_PathN_mem, addForm_Path]
      simp [h1, h2]

theorem classifyArg_JSON_mem (p : Poly) (k : Nat) (T : GoType) (h : handler) (x : Nat) :
    x ∈ (classifyArg p k T h).JSON ↔ x ∈ h.JSON ∨ (x = k ∧ jsonEligible T) := by
  unfold classifyArg jsonEligible
  by_cases h1 : T = argTypeRequest
  · simp [h1]
  · by_cases h2 : T.kind = Kind.interface
    · simp [h1, h2]
    · simp only [if_neg h1, if_neg h2]
      rw [addJSON_JSON_mem, addQuery_JSON, addPath_JSON, addForm_JSON]
      simp [h1, h2]

theorem classifyArgs_Form_mem (p : Poly) :
    ∀ (ts : List GoType) (k : Nat) (h : handler) (x : Nat),
      x ∈ (classifyArgs p k ts h).Form ↔
        x ∈ h.Form ∨ ∃ i, i < ts.length ∧ x = k + i ∧ formEligible p (ts.getD i dfltType) := by
  intro ts
  induction ts with
  | nil => intro k h x; simp [classifyArgs]
  | cons T rest ih =>
    intro k h x
    rw [show classifyArgs p k (T :: rest) h = classifyArgs p (k + 1) rest (classifyArg p k T h)
      from rfl]
    rw [ih, classifyArg_Form_mem]
    constructor
    · rintro ((hx | ⟨rfl, he⟩) | ⟨i, hi, rfl, he⟩)
      · exact Or.inl hx
      · exact Or.inr ⟨0, by simp, by simp, by simpa using he⟩
      · exact Or.inr ⟨i + 1, by simp only [List.length_cons]; omega, by omega, by simpa using he⟩
    · rintro (hx | ⟨i, hi, hx, he⟩)
      · exact Or.inl (Or.inl hx)
      · cases i with
        | zero => exact Or.inl (Or.inr ⟨by omega, by simpa using he⟩)
        | succ j =>
          refine Or.inr ⟨j, by simp only [List.length_cons] at hi; omega, by omega, ?_⟩
          simpa using he

theorem classifyArgs_Query_mem (p : Poly) :
    ∀ (ts : List GoType) (k : Nat) (h : handler) (x : Nat),
      x ∈ (classifyArgs p k ts h).Query ↔
        x ∈ h.Query ∨ ∃ i, i < ts.length ∧ x = k + i ∧ queryEligible p (ts.getD i dfltType) := by
  intro ts
  induction ts with
  | nil => intro k h x; simp [classifyArgs]
  | cons T rest ih =>
    intro k h x
    rw [show classifyArgs p k (T :: rest) h = classifyArgs p (k + 1) rest (classifyArg p k T h)
      from rfl]
    rw [ih, classifyArg_Query_mem]
    constructor
    · rintro ((hx | ⟨rfl, he⟩) | ⟨i, hi, rfl, he⟩)
      · exact Or.inl hx
      · exact Or.inr ⟨0, by simp, by simp, by simpa using he⟩
      · exact Or.inr ⟨i + 1, by simp only [List.length_cons]; omega, by omega, by simpa using he⟩
    · rintro (hx | ⟨i, hi, hx, he⟩)
      · exact Or.inl (Or.inl hx)
      · cases i with
        | zero => exact Or.inl (Or.inr ⟨by omega, by simpa using he⟩)
        | succ j =>
          refine Or.inr ⟨j, by simp only [List.length_cons] at hi; omega, by omega, ?_⟩
          simpa using he

theorem classifyArgs_PathN_mem (p : Poly) :
    ∀ (ts : List GoType) (k : Nat) (h : handler) (x : Nat),
      x ∈ (classifyArgs p k ts h).Path.map pathParams.N ↔
        x ∈ h.Path.map pathParams.N ∨
          ∃ i, i < ts.length ∧ x = k + i ∧ pathEligible p (ts.getD i dfltType) := by
  intro ts
  induction ts with
  | nil => intro k h x; simp [classifyArgs]
  | cons T rest ih =>
    intro k h x
    rw [show classifyArgs p k (T :: rest) h = classifyArgs p (k + 1) rest (classifyArg p k T h)
      from rfl]
    rw [ih, classifyArg_PathN_mem]
    constructor
    · rintro ((hx | ⟨rfl, he⟩) | ⟨i, hi, rfl, he⟩)
      · exact Or.inl hx
      · exact Or.inr ⟨0, by simp, by simp, by simpa using he⟩
      · exact Or.inr ⟨i + 1, by simp only [List.length_cons]; omega, by omega, by simpa using he⟩
    · rintro (hx | ⟨i, hi, hx, he⟩)
      · exact Or.inl (Or.inl hx)
      · cases i with
        | zero => exact Or.inl (Or.inr ⟨by omega, by simpa using he⟩)
        | succ j =>
          refine Or.inr ⟨j, by simp only [List.length_cons] at hi; omega, by omega, ?_⟩
          simpa using he

theorem classifyArgs_JSON_mem (p : Poly) :
    ∀ (ts : List GoType) (k : Nat) (h : handler) (x : Nat),
      x ∈ (classifyArgs p k ts h).JSON ↔
        x ∈ h.JSON ∨ ∃ i, i < ts.length ∧ x = k + i ∧ jsonEligible (ts.getD i dfltType) := by
  intro ts
  induction ts with
  | nil => intro k h x; simp [classifyArgs]
  | cons T rest ih =>
    intro k h x
    rw [show classifyArgs p k (T :: rest) h = classifyArgs p (k + 1) rest (classifyArg p k T h)
      from rfl]
    rw [ih, classifyArg_JSON_mem]
    constructor
    · rintro ((hx | ⟨rfl, he⟩) | ⟨i, hi, rfl, he⟩)
      · exact Or.inl hx
      · exact Or.inr ⟨0, by simp, by simp, by simpa using he⟩
      · exact Or.inr ⟨i + 1, by simp only [List.length_cons]; omega, by omega, by simpa using he⟩
    · rintro (hx | ⟨i, hi, hx, he⟩)
      · exact Or.inl (Or.inl hx)
      · cases i with
        | zero => exact Or.inl (Or.inr ⟨by omega, by simpa using he⟩)
        | succ j =>
          refine Or.inr ⟨j, by simp only [List.length_cons] at hi; omega, by omega, ?_⟩
          simpa using he

theorem newHandler_Form (p : Poly) (fn : Func) :
    (newHandler p fn).Form = (classifyArgs p 0 fn.InTypes
      ⟨p, fn, false, fn.PruneIn [argTypeRequest, argTypeResponseWriter], [], [], [], []⟩).Form := rfl

theorem newHandler_JSON (p : Poly) (fn : Func) :
    (newHandler p fn).JSON = (classifyArgs p 0 fn.InTypes
      ⟨p, fn, false, fn.PruneIn [argTypeRequest, argTypeResponseWriter], [], [], [], []⟩).JSON := rfl

theorem newHandler_Path (p : Poly) (fn : Func) :
    (newHandler p fn).Path = (classifyArgs p 0 fn.InTypes
      ⟨p, fn, false, fn.PruneIn [argTypeRequest, argTypeResponseWriter], [], [], [], []⟩).Path := rfl

theorem newHandler_Query (p : Poly) (fn : Func) :
    (newHandler p fn).Query = (classifyArgs p 0 fn.InTypes
      ⟨p, fn, false, fn.PruneIn [argTypeRequest, argTypeResponseWriter], [], [], [], []⟩).Query := rfl

theorem newHandler_FnHasReturn (p : Poly) (fn : Func) :
    (newHandler p fn).FnHasReturn = fnHasReturn fn := rfl

theorem decodeJSONTargets_ok (ok : Nat → String → Bool) (bytes : String) :
    ∀ ns : List Nat, (∀ n ∈ ns, ok n bytes = true) →
      decodeJSONTargets ok bytes ns = (ns.map fun n => (n, bytes), true) := by
  intro ns
  induction ns with
  | nil => intro _; rfl
  | cons n rest ih =>
    intro hall
    have hn : ok n bytes = true := hall n (by simp)
    have hrest := ih fun m hm => hall m (by simp [hm])
    simp [decodeJSONTargets, hn, hrest]

theorem decodeJSONTargets_fail (ok : Nat → String → Bool) (bytes : String) :
    ∀ ns : List Nat, ¬(∀ n ∈ ns, ok n bytes = true) →
      (decodeJSONTargets ok bytes ns).2 = false := by
  intro ns
  induction ns with
  | nil => intro hc; exact absurd (by simp) hc
  | cons n rest ih =>
    intro hc
    by_cases hn : ok n bytes = true
    · have hrest : ¬(∀ m ∈ rest, ok m bytes = true) := by
        intro hall
        refine hc ?_
        intro m hm
        rcases List.mem_cons.mp hm with rfl | hm2
        · exact hn
        · exact hall m hm2
      simp [decodeJSONTargets, hn, ih hrest]
    · simp [decodeJSONTargets, hn]

theorem decodeJSONTargets_fst_mem (ok : Nat → String → Bool) (bytes : String) :
    ∀ (ns : List Nat) (pr : Nat × String), pr ∈ (decodeJSONTargets ok bytes ns).1 → pr.1 ∈ ns := by
  intro ns
  induction ns with
  | nil => intro pr hm; simp [decodeJSONTargets] at hm
  | cons n rest ih =>
    intro pr hm
    by_cases hn : ok n bytes = true
    · simp only [decodeJSONTargets, if_pos hn, List.mem_cons] at hm
      rcases hm with rfl | hm2
      · simp
      · simp [ih pr hm2]
    · simp only [decodeJSONTargets, if_neg hn, List.mem_singleton] at hm
      subst hm
      simp

theorem bodyStep_invoked_out (h : handler) (req : Request) (ok : Nat → String → Bool)
    (res : CallResult) :
    (bodyStep h req ok res).invoked = true → (bodyStep h req ok res).out = encodeResponse h res := by
  simp only [bodyStep]
  split
  · split
    · simp
    · split <;> simp
  · split
    · split <;> simp
    · simp

theorem bodyStep_jsonDecodes_mem (h : handler) (req : Request) (ok : Nat → String → Bool)
    (res : CallResult) (pr : Nat × String) :
    pr ∈ (bodyStep h req ok res).jsonDecodes → pr.1 ∈ h.JSON := by
  simp only [bodyStep]
  split
  · split
    · simp
    · split <;>
        · intro hm
          exact decodeJSONTargets_fst_mem ok _ h.JSON pr hm
  · split
    · split <;> simp
    · simp

theorem bodyStep_formWrites_mem (h : handler) (req : Request) (ok : Nat → String → Bool)
    (res : CallResult) (pr : Nat × List (String × List String)) :
    pr ∈ (bodyStep h req ok res).formWrites → pr.1 ∈ h.Form := by
  simp only [bodyStep]
  split
  · split
    · simp
    · split <;> simp
  · split
    · split
      · intro hm
        rcases List.mem_map.mp hm with ⟨n, hn, rfl⟩
        exact hn
      · simp
    · simp

theorem bodyStep_skip (h : handler) (req : Request) (ok : Nat → String → Bool) (res : CallResult)
    (hj : ¬(req.contentType = "application/json" ∧ h.JSON ≠ []))
    (hf : ¬(req.contentType = "application/x-www-form-urlencoded" ∧ h.Form ≠ [])) :
    bodyStep h req ok res = ⟨[], [], true, encodeResponse h res⟩ := by
  have hj' : (!h.JSON.isEmpty && req.contentType == "application/json") = false := by
    by_cases hc : req.contentType = "application/json"
    · have hnil : h.JSON = [] := by tauto
      simp [hnil]
    · simp [hc]
  have hf' : (!h.Form.isEmpty && req.contentType == "application/x-www-form-urlencoded") = false := by
    by_cases hc : req.contentType = "application/x-www-form-urlencoded"
    · have hnil : h.Form = [] := by tauto
      simp [hnil]
    · simp [hc]
  simp [bodyStep, hj', hf']

theorem serveHTTP_bodyFields (h : handler) (req : Request) (ok : Nat → String → Bool)
    (res : CallResult) :
    (serveHTTP h req ok res).jsonDecodes = (bodyStep h req ok res).jsonDecodes ∧
    (serveHTTP h req ok res).formWrites = (bodyStep h req ok res).formWrites ∧
    (serveHTTP h req ok res).invoked = (bodyStep h req ok res).invoked ∧
    (serveHTTP h req ok res).out = (bodyStep h req ok res).out := ⟨rfl, rfl, rfl, rfl⟩

theorem serveHTTP_pathWrites_mem (h : handler) (req : Request) (ok : Nat → String → Bool)
    (res : CallResult) (pr : Nat × List (String × String)) :
    pr ∈ (serveHTTP h req ok res).pathWrites → pr.1 ∈ h.Path.map pathParams.N := by
  show pr ∈ (match h.Poly.PathParamer with
    | some pp => h.Path.map fun (prm : pathParams) =>
        (prm.N, prm.Keys.map fun key => (key, pp req key))
    | none => []) → pr.1 ∈ h.Path.map pathParams.N
  rcases h.Poly.PathParamer with _ | pp
  · simp
  · intro hm
    rcases List.mem_map.mp hm with ⟨prm, hprm, rfl⟩
    exact List.mem_map.mpr ⟨prm, hprm, rfl⟩

theorem serveHTTP_queryWrites_mem (h : handler) (req : Request) (ok : Nat → String → Bool)
    (res : CallResult) (pr : Nat × List (String × List String)) :
    pr ∈ (serveHTTP h req ok res).queryWrites → pr.1 ∈ h.Query := by
  show pr ∈ (if h.Query.isEmpty then [] else h.Query.map fun n => (n, req.query)) → pr.1 ∈ h.Query
  split
  · simp
  · intro hm
    rcases List.mem_map.mp hm with ⟨n, hn, rfl⟩
    exact hn

theorem length_dropWhile_le (q : Char → Bool) (l : List Char) :
    (l.dropWhile q).length ≤ l.length :=
  (List.dropWhile_sublist q).length_le

theorem dropWhile_head_false (q : Char → Bool) :
    ∀ (l : List Char) (c : Char) (t : List Char), l.dropWhile q = c :: t → q c = false := by
  intro l
  induction l with
  | nil => intro c t hh; simp at hh
  | cons a l ih =>
    intro c t hh
    rw [List.dropWhile_cons] at hh
    split at hh
    · exact ih c t hh
    · next hqa =>
      cases hh
      simpa using hqa

theorem pathTokensLoop_congr :
    ∀ (f1 f2 : Nat) (p : List Char), p.length ≤ f1 → p.length ≤ f2 →
      pathTokensLoop f1 p = pathTokensLoop f2 p := by
  intro f1
  induction f1 with
  | zero =>
    intro f2 p h1 _
    have hp : p = [] := List.length_eq_zero.mp (Nat.le_zero.mp h1)
    subst hp
    cases f2 with
    | zero => rfl
    | succ g => simp [pathTokensLoop]
  | succ g1 ih =>
    intro f2 p h1 h2
    cases f2 with
    | zero =>
      have hp : p = [] := List.length_eq_zero.mp (Nat.le_zero.mp h2)
      subst hp
      simp [pathTokensLoop]
    | succ g2 =>
      simp only [pathTokensLoop]
      rcases hp1 : p.dropWhile (fun c => c == '/') with _ | ⟨c, t⟩
      · rfl
      · simp only [List.isEmpty_cons, Bool.false_eq_true, if_false]
        congr 1
        have hc : (c == '/') = false := dropWhile_head_false _ p c t hp1
        have hp1len : t.length + 1 ≤ p.length := by
          have hs := length_dropWhile_le (fun c => c == '/') p
          rw [hp1] at hs
          simpa using hs
        have hcne : c ≠ '/' := by simpa using hc
        have hrest : ((c :: t).dropWhile fun c2 => c2 != '/') = t.dropWhile fun c2 => c2 != '/' :=
          List.dropWhile_cons_of_pos (by simp [hcne])
        have hr1 : ((c :: t).dropWhile fun c2 => c2 != '/').length ≤ g1 := by
          rw [hrest]
          have hs := length_dropWhile_le (fun c2 => c2 != '/') t
          omega
        have hr2 : ((c :: t).dropWhile fun c2 => c2 != '/').length ≤ g2 := by
          rw [hrest]
          have hs := length_dropWhile_le (fun c2 => c2 != '/') t
          omega
        exact ih g2 _ hr1 hr2

theorem pathTokens_step (p : List Char) :
    pathTokens p =
      (if (p.dropWhile fun c => c == '/').isEmpty then []
       else ((p.dropWhile fun c => c == '/').takeWhile fun c => c != '/') ::
         pathTokens ((p.dropWhile fun c => c == '/').dropWhile fun c => c != '/')) := by
  unfold pathTokens
  cases hl : p.length with
  | zero =>
    have hp : p = [] := List.length_eq_zero.mp hl
    subst hp
    rfl
  | succ n =>
    simp only [pathTokensLoop]
    rcases hp1 : p.dropWhile (fun c => c == '/') with _ | ⟨c, t⟩
    · rfl
    · simp only [List.isEmpty_cons, Bool.false_eq_true, if_false]
      congr 1
      have hc : (c == '/') = false := dropWhile_head_false _ p c t hp1
      have hp1len : t.length + 1 ≤ p.length := by
        have hs := length_dropWhile_le (fun c => c == '/') p
        rw [hp1] at hs
        simpa using hs
      have hcne : c ≠ '/' := by simpa using hc
      have hrest : ((c :: t).dropWhile fun c2 => c2 != '/') = t.dropWhile fun c2 => c2 != '/' :=
        List.dropWhile_cons_of_pos (by simp [hcne])
      have hr1 : ((c :: t).dropWhile fun c2 => c2 != '/').length ≤ n := by
        rw [hrest]
        have hs := length_dropWhile_le (fun c2 => c2 != '/') t
        omega
      exact pathTokensLoop_congr n _ _ hr1 (le_refl _)

theorem parsePathLoop_eq_fromTokens :
    ∀ (fuel : Nat) (p : List Char) (acc : List (String × String)), p.length ≤ fuel →
      parsePathLoop fuel p acc = fromTokens acc (pathTokens p) := by
  intro fuel
  induction fuel with
  | zero =>
    intro p acc hle
    have hp : p = [] := List.length_eq_zero.mp (Nat.le_zero.mp hle)
    subst hp
    rfl
  | succ g ih =>
    intro p acc hle
    rw [pathTokens_step p]
    simp only [parsePathLoop]
    rcases hp1 : p.dropWhile (fun c => c == '/') with _ | ⟨c, t⟩
    · rfl
    · simp only [List.isEmpty_cons, Bool.false_eq_true, if_false]
      have hc : (c == '/') = false := dropWhile_head_false _ p c t hp1
      have hp1len : t.length + 1 ≤ p.length := by
        have hs := length_dropWhile_le (fun c => c == '/') p
        rw [hp1] at hs
        simpa using hs
      have hcne : c ≠ '/' := by simpa using hc
      have hrest : ((c :: t).dropWhile fun c2 => c2 != '/') = t.dropWhile fun c2 => c2 != '/' :=
        List.dropWhile_cons_of_pos (by simp [hcne])
      rcases hr : ((c :: t).dropWhile fun c2 => c2 != '/') with _ | ⟨d, u⟩
      · rfl
      · simp only [List.isEmpty_cons, Bool.false_eq_true, if_false]
        rw [pathTokens_step (d :: u)]
        have hd : (d != '/') = false := dropWhile_head_false _ (c :: t) d u hr
        have hd2 : (d == '/') = true := by simpa [bne] using hd
        have hrlen : u.length + 1 ≤ t.length := by
          have hs := length_dropWhile_le (fun c2 => c2 != '/') t
          rw [← hrest, hr] at hs
          simpa using hs
        have hrest2 : ((d :: u).dropWhile fun c2 => c2 == '/') = u.dropWhile fun c2 => c2 == '/' :=
          List.dropWhile_cons_of_pos hd2
        rcases hr2 : ((d :: u).dropWhile fun c2 => c2 == '/') with _ | ⟨e, v⟩
        · rfl
        · simp only [List.isEmpty_cons, Bool.false_eq_true, if_false]
          rcases hr3 : ((e :: v).dropWhile fun c2 => c2 != '/') with _ | ⟨f, w⟩
          · rfl
          · have hev : v.length + 1 ≤ u.length := by
              have hs := length_dropWhile_le (fun c2 => c2 == '/') u
              rw [← hrest2, hr2] at hs
              simpa using hs
            have hfw : (f :: w).length ≤ g := by
              have hs := length_dropWhile_le (fun c2 => c2 != '/') (e :: v)
              rw [hr3] at hs
              simp only [List.length_cons] at hs hev hrlen hp1len ⊢
              omega
            exact ih (f :: w) _ hfw

/-- Sample plan used by witness theorems: no mappers, no path-param
provider, some targets recorded. -/
def hW : handler :=
  { Poly := polyNone, Fn := ⟨[], []⟩, FnHasReturn := false
    PassThru := [], Form := [1], JSON := [2], Path := [⟨0, ["Name"]⟩], Query := [1] }

/-- Sample request with JSON content type and an empty-object body. -/
def reqJSON : Request := ⟨"application/json", Except.ok "\x7b\x7d", true, [], []⟩

/-- Sample request whose content type carries a charset parameter. -/
def reqCharset : Request :=
  ⟨"application/json; charset=utf-8", Except.ok "\x7b\x7d", true, [], []⟩

/-- Decode oracle that always succeeds. -/
def okAll : Nat → String → Bool := fun _ _ => true

/-- Call outcome with a non-nil error return. -/
def resErr : CallResult := ⟨some "boom", Payload.str ""⟩

/-- Call outcome with no error and a string payload. -/
def resOk : CallResult := ⟨none, Payload.str "hi"⟩

/-- C1: for every registered function and every request, if the invoked
function's error return is non-nil, the response is written with status 500
and the error's text, and no payload is written regardless of any other
return values (the encoder returns before the payload branch). -/
theorem C1_error_precedence (h : handler) (req : Request) (ok : Nat → String → Bool)
    (res : CallResult) (e : String) (he : res.error = some e) :
    encodeResponse h res = HttpOut.httpError e 500 ∧
      ((serveHTTP h req ok res).invoked = true →
        (serveHTTP h req ok res).out = HttpOut.httpError e 500) := by
  have henc : encodeResponse h res = HttpOut.httpError e 500 := by
    simp [encodeResponse, he]
  refine ⟨henc, fun hinv => ?_⟩
  have hout := bodyStep_invoked_out h req ok res hinv
  calc (serveHTTP h req ok res).out = (bodyStep h req ok res).out := rfl
    _ = encodeResponse h res := hout
    _ = HttpOut.httpError e 500 := henc

theorem C1_error_precedence_witness :
    encodeResponse hW resErr = HttpOut.httpError "boom" 500 ∧
      ((serveHTTP hW reqJSON okAll resErr).invoked = true →
        (serveHTTP hW reqJSON okAll resErr).out = HttpOut.httpError "boom" 500) :=
  C1_error_precedence hW reqJSON okAll resErr "boom" rfl

/-- C2: for every request whose Content-Type is exactly the JSON media type
and whose handler has JSON targets: a body-read failure is a 400 with no
decode, no form write and no invocation; otherwise each JSON target is
decoded independently from the same full raw bytes, a decode failure is a
400 without invocation, and full success reaches the function. -/
theorem C2_json_body_binding (h : handler) (req : Request) (ok : Nat → String → Bool)
    (res : CallResult) (hct : req.contentType = "application/json") (hj : h.JSON ≠ []) :
    (∀ e, req.bodyRead = Except.error e →
        (serveHTTP h req ok res).out = HttpOut.httpError "reading body" 400 ∧
        (serveHTTP h req ok res).invoked = false ∧
        (serveHTTP h req ok res).jsonDecodes = [] ∧
        (serveHTTP h req ok res).formWrites = []) ∧
    (∀ bytes, req.bodyRead = Except.ok bytes →
        ((∀ n ∈ h.JSON, ok n bytes = true) →
            (serveHTTP h req ok res).invoked = true ∧
            (serveHTTP h req ok res).jsonDecodes = h.JSON.map (fun n => (n, bytes)) ∧
            (serveHTTP h req ok res).out = encodeResponse h res) ∧
        (¬(∀ n ∈ h.JSON, ok n bytes = true) →
            (serveHTTP h req ok res).invoked = false ∧
            (serveHTTP h req ok res).formWrites = [] ∧
            (serveHTTP h req ok res).out = HttpOut.httpError "decoding json" 400)) := by
  have hne : h.JSON.isEmpty = false := by
    rcases hJ : h.JSON with _ | ⟨a, t⟩
    · exact absurd hJ hj
    · rfl
  have htj : (!h.JSON.isEmpty && req.contentType == "application/json") = true := by
    simp [hne, hct]
  constructor
  · intro e he
    have hb : bodyStep h req ok res = ⟨[], [], false, HttpOut.httpError "reading body" 400⟩ := by
      simp [bodyStep, htj, he]
    exact ⟨by rw [(serveHTTP_bodyFields h req ok res).2.2.2, hb],
           by rw [(serveHTTP_bodyFields h req ok res).2.2.1, hb],
           by rw [(serveHTTP_bodyFields h req ok res).1, hb],
           by rw [(serveHTTP_bodyFields h req ok res).2.1, hb]⟩
  · intro bytes hbytes
    constructor
    · intro hall
      have hd := decodeJSONTargets_ok ok bytes h.JSON hall
      have hb : bodyStep h req ok res =
          ⟨h.JSON.map fun n => (n, bytes), [], true, encodeResponse h res⟩ := by
        simp [bodyStep, htj, hbytes, hd]
      exact ⟨by rw [(serveHTTP_bodyFields h req ok res).2.2.1, hb],
             by rw [(serveHTTP_bodyFields h req ok res).1, hb],
             by rw [(serveHTTP_bodyFields h req ok res).2.2.2, hb]⟩
    · intro hnall
      have hd2 := decodeJSONTargets_fail ok bytes h.JSON hnall
      have hb : bodyStep h req ok res =
          ⟨(decodeJSONTargets ok bytes h.JSON).1, [], false,
            HttpOut.httpError "decoding json" 400⟩ := by
        simp [bodyStep, htj, hbytes, hd2]
      exact ⟨by rw [(serveHTTP_bodyFields h req ok res).2.2.1, hb],
             by rw [(serveHTTP_bodyFields h req ok res).2.1, hb],
             by rw [(serveHTTP_bodyFields h req ok res).2.2.2, hb]⟩

theorem C2_json_body_binding_witness :
    (serveHTTP hW reqJSON okAll resOk).invoked = true ∧
    (serveHTTP hW reqJSON okAll resOk).jsonDecodes = hW.JSON.map (fun n => (n, "\x7b\x7d")) ∧
    (serveHTTP hW reqJSON okAll resOk).out = encodeResponse hW resOk :=
  ((C2_json_body_binding hW reqJSON okAll resOk rfl (by decide)).2 "\x7b\x7d" rfl).1
    (fun _ _ => rfl)

/-- C4: the plan's FnHasReturn flag is true iff the function has at least
one return value whose first kind is whitelisted; function, channel,
interface and complex kinds are excluded, and without the flag (or an
error) nothing is written. -/
theorem C4_payload_return_whitelist (p : Poly) (fn : Func) :
    ((newHandler p fn).FnHasReturn = true ↔
      ∃ T rest, fn.OutTypes = T :: rest ∧ T.kind ∈ payloadKinds) ∧
    (∀ res : CallResult, res.error = none → (newHandler p fn).FnHasReturn = false →
      encodeResponse (newHandler p fn) res = HttpOut.empty) ∧
    Kind.func ∉ payloadKinds ∧ Kind.chan ∉ payloadKinds ∧ Kind.interface ∉ payloadKinds ∧
      Kind.complex64 ∉ payloadKinds ∧ Kind.complex128 ∉ payloadKinds := by
  refine ⟨?_, ?_, by decide, by decide, by decide, by decide, by decide⟩
  · rw [newHandler_FnHasReturn]
    unfold fnHasReturn
    rcases ho : fn.OutTypes with _ | ⟨T, rest⟩ <;> simp [ho]
  · intro res hre hf
    simp [encodeResponse, hre, hf]

/-- Function with no return values, for the C4 witness. -/
def fnNoRet : Func := ⟨[], []⟩

theorem C4_payload_return_whitelist_witness :
    encodeResponse (newHandler polyNone fnNoRet) resOk = HttpOut.empty :=
  (C4_payload_return_whitelist polyNone fnNoRet).2.1 resOk rfl (by decide)

/-- C7: body binding runs only when the Content-Type header exactly equals
one of the two media-type literals and the handler has targets for that
source; otherwise body binding is skipped entirely, the function is still
invoked, and no error is produced. -/
theorem C7_content_type_exact_gating (h : handler) (req : Request) (ok : Nat → String → Bool)
    (res : CallResult)
    (hj : ¬(req.contentType = "application/json" ∧ h.JSON ≠ []))
    (hf : ¬(req.contentType = "application/x-www-form-urlencoded" ∧ h.Form ≠ [])) :
    (serveHTTP h req ok res).jsonDecodes = [] ∧
    (serveHTTP h req ok res).formWrites = [] ∧
    (serveHTTP h req ok res).invoked = true ∧
    (serveHTTP h req ok res).out = encodeResponse h res := by
  have hb := bodyStep_skip h req ok res hj hf
  exact ⟨by rw [(serveHTTP_bodyFields h req ok res).1, hb],
         by rw [(serveHTTP_bodyFields h req ok res).2.1, hb],
         by rw [(serveHTTP_bodyFields h req ok res).2.2.1, hb],
         by rw [(serveHTTP_bodyFields h req ok res).2.2.2, hb]⟩

theorem C7_content_type_exact_gating_witness :
    (serveHTTP hW reqCharset okAll resOk).jsonDecodes = [] ∧
    (serveHTTP hW reqCharset okAll resOk).formWrites = [] ∧
    (serveHTTP hW reqCharset okAll resOk).invoked = true ∧
    (serveHTTP hW reqCharset okAll resOk).out = encodeResponse hW resOk :=
  C7_content_type_exact_gating hW reqCharset okAll resOk (by decide) (by decide)

/-- Function returning one map value, for the C3 evaluation. -/
def fnC3 : Func := ⟨[], [GoType.named Kind.map "map[string]string"]⟩

/-- A no-error call whose non-string payload marshals to JSON containing a
`%d` verb. -/
def resC3 : CallResult := ⟨none, Payload.other (Except.ok "\x7b\"A\":\"%d\"\x7d")⟩

/-- C3 (code bug): handler.go line 225 writes the marshaled payload with
`fmt.Fprintf(w, string(blob))`, using the payload bytes as the format
string.  A marshaled payload containing a `%` verb is therefore mangled:
the body written is not the marshaled bytes, contradicting the claim (and
the commented-out `fmt.Fprint` call directly above the line, which shows
the intent).  Evaluated here at a payload marshaling to
`\x7b"A":"%d"\x7d`. -/
theorem C3_fprintf_mangles_payload :
    encodeResponse (newHandler polyNone fnC3) resC3 =
      HttpOut.payloadJSON "application/json" "\x7b\"A\":\"%!d(MISSING)\"\x7d" ∧
    fprintfNoArgs "\x7b\"A\":\"%d\"\x7d" ≠ "\x7b\"A\":\"%d\"\x7d" := by
  exact ⟨by decide, by decide⟩

/-- Function whose only parameter is *http.Request, for the C5
counterexample. -/
def fnReqOnly : Func := ⟨[argTypeRequest], []⟩

/-- C5 counterexample: *http.Request is a pointer-to-struct parameter, yet
newHandler's `continue` on the request type keeps its index out of the JSON
target set, so the claim as stated fails at index 0 of
`func(*http.Request)`. -/
theorem C5_request_param_counterexample :
    ptrToStruct (fnReqOnly.InTypes.getD 0 dfltType) = true ∧
      0 ∉ (newHandler polyNone fnReqOnly).JSON := by decide

theorem struct_or_ptr_kind_ne_interface (T : GoType)
    (hs : T.kind = Kind.struct ∨ ptrToStruct T = true) : T.kind ≠ Kind.interface := by
  rcases hs with hs | hs
  · rw [hs]; decide
  · cases T with
    | named kk nm => simp [ptrToStruct] at hs
    | ptr e => simp [GoType.kind]

/-- C5 (amended): every parameter whose type is a struct or a pointer to a
struct, other than the request type *http.Request itself, has its argument
index in the plan's JSON target set, regardless of eligibility for any
other binding source. -/
theorem C5_struct_params_in_json (p : Poly) (fn : Func) (k : Nat)
    (hk : k < fn.InTypes.length)
    (hreq : fn.InTypes.getD k dfltType ≠ argTypeRequest)
    (hs : (fn.InTypes.getD k dfltType).kind = Kind.struct ∨
          ptrToStruct (fn.InTypes.getD k dfltType) = true) :
    k ∈ (newHandler p fn).JSON := by
  rw [newHandler_JSON, classifyArgs_JSON_mem]
  refine Or.inr ⟨k, hk, by omega, ?_⟩
  unfold jsonEligible
  exact ⟨hreq, struct_or_ptr_kind_ne_interface _ hs, hs⟩

/-- Function with one struct parameter, for the C5 witness. -/
def fnStruct : Func := ⟨[GoType.named Kind.struct "T"], []⟩

theorem C5_struct_params_in_json_witness :
    0 ∈ (newHandler polyNone fnStruct).JSON :=
  C5_struct_params_in_json polyNone fnStruct 0 (by decide) (by decide) (Or.inl rfl)

/-- C6: the ParsePath contract — the concrete examples of the spec, plus:
parsing depends only on the sequence of nonempty slash-free segments (so
leading, trailing and repeated slashes are ignored), and an empty or
all-slash input yields an empty mapping. -/
theorem C6_parse_path_contract :
    ParsePath "Name/Fred/Age/42" = [("Name", "Fred"), ("Age", "42")] ∧
    ParsePath "Name/Fred/Age" = [("Name", "Fred"), ("Age", "")] ∧
    ParsePath "Name/Fred/Age/42/Name/Barney/Age/38" = [("Name", "Barney"), ("Age", "38")] ∧
    ParsePath "//Name///Fred//" = [("Name", "Fred")] ∧
    ParsePath "" = [] ∧
    (∀ p q : String, pathTokens p.data = pathTokens q.data → ParsePath p = ParsePath q) ∧
    (∀ n : Nat, ParsePath (String.mk (List.replicate n '/')) = []) := by
  refine ⟨by decide, by decide, by decide, by decide, by decide, ?_, ?_⟩
  · intro p q htok
    unfold ParsePath
    rw [parsePathLoop_eq_fromTokens p.data.length p.data [] (le_refl _),
        parsePathLoop_eq_fromTokens q.data.length q.data [] (le_refl _), htok]
  · intro n
    have htok : pathTokens (List.replicate n '/') = [] := by
      rw [pathTokens_step]
      simp [List.dropWhile_replicate]
    show parsePathLoop (List.replicate n '/').length (List.replicate n '/') [] = []
    rw [parsePathLoop_eq_fromTokens _ _ [] (le_refl _), htok]
    rfl

theorem C6_parse_path_contract_witness :
    ParsePath "a/b" = ParsePath "/a//b/" :=
  C6_parse_path_contract.2.2.2.2.2.1 "a/b" "/a//b/" (by decide)

/-- C8: a function whose parameter list is exactly
(http.ResponseWriter, *http.Request) bypasses the plan machinery: it is
adapted directly, and serving calls it with the given response writer and
request unchanged. -/
theorem C8_direct_fast_path (p : Poly) (fn : Func)
    (hsig : fn.InTypes = [argTypeResponseWriter, argTypeRequest]) :
    Poly.Handler p fn = HttpHandler.direct fn ∧
      ∀ (w : Nat) (req : Request),
        dispatchServe (Poly.Handler p fn) w req = ServeEvent.calledDirect fn w req := by
  have h1 : Poly.Handler p fn = HttpHandler.direct fn := by
    unfold Poly.Handler
    rw [if_pos hsig]
  refine ⟨h1, fun w req => ?_⟩
  rw [h1]
  rfl

/-- Function of shape (http.ResponseWriter, *http.Request), for the C8
witness. -/
def fnWR : Func := ⟨[argTypeResponseWriter, argTypeRequest], []⟩

theorem C8_direct_fast_path_witness :
    Poly.Handler polyNone fnWR = HttpHandler.direct fnWR ∧
      ∀ (w : Nat) (req : Request),
        dispatchServe (Poly.Handler polyNone fnWR) w req =
          ServeEvent.calledDirect fnWR w req :=
  C8_direct_fast_path polyNone fnWR rfl

/-- C9: with path targets but no Path-Param Provider, path binding is
silently skipped on every request: no path value is written, no error is
produced, and the whole execution is the one of the same plan with no path
targets at all. -/
theorem C9_missing_path_paramer (h : handler) (req : Request) (ok : Nat → String → Bool)
    (res : CallResult) (hpp : h.Poly.PathParamer = none) :
    serveHTTP h req ok res = serveHTTP { h with Path := [] } req ok res ∧
      (serveHTTP h req ok res).pathWrites = [] := by
  constructor
  · simp [serveHTTP, hpp]
    exact ⟨rfl, rfl, rfl, rfl⟩
  · show (match h.Poly.PathParamer with
      | some pp => h.Path.map fun (prm : pathParams) =>
          (prm.N, prm.Keys.map fun key => (key, pp req key))
      | none => []) = []
    rw [hpp]

theorem C9_missing_path_paramer_witness :
    serveHTTP hW reqJSON okAll resOk = serveHTTP { hW with Path := [] } reqJSON okAll resOk ∧
      (serveHTTP hW reqJSON okAll resOk).pathWrites = [] :=
  C9_missing_path_paramer hW reqJSON okAll resOk rfl

/-- C10: every interface-kind parameter is excluded from all four target
sets of the plan, so no mapper write or body decode ever targets an
interface-typed argument. -/
theorem C10_interface_params_excluded (p : Poly) (fn : Func) (k : Nat)
    (hk : k < fn.InTypes.length)
    (hki : (fn.InTypes.getD k dfltType).kind = Kind.interface) :
    k ∉ (newHandler p fn).Form ∧ k ∉ (newHandler p fn).JSON ∧
    k ∉ (newHandler p fn).Query ∧ k ∉ (newHandler p fn).Path.map pathParams.N ∧
    ∀ (req : Request) (ok : Nat → String → Bool) (res : CallResult),
      (∀ pr ∈ (serveHTTP (newHandler p fn) req ok res).jsonDecodes, pr.1 ≠ k) ∧
      (∀ pr ∈ (serveHTTP (newHandler p fn) req ok res).formWrites, pr.1 ≠ k) ∧
      (∀ pr ∈ (serveHTTP (newHandler p fn) req ok res).pathWrites, pr.1 ≠ k) ∧
      (∀ pr ∈ (serveHTTP (newHandler p fn) req ok res).queryWrites, pr.1 ≠ k) := by
  have hform : k ∉ (newHandler p fn).Form := by
    rw [newHandler_Form, classifyArgs_Form_mem]
    rintro (hx | ⟨i, hi, hik, he⟩)
    · simp at hx
    · have hieq : i = k := by omega
      subst hieq
      exact he.2.1 hki
  have hjson : k ∉ (newHandler p fn).JSON := by
    rw [newHandler_JSON, classifyArgs_JSON_mem]
    rintro (hx | ⟨i, hi, hik, he⟩)
    · simp at hx
    · have hieq : i = k := by omega
      subst hieq
      exact he.2.1 hki
  have hquery : k ∉ (newHandler p fn).Query := by
    rw [newHandler_Query, classifyArgs_Query_mem]
    rintro (hx | ⟨i, hi, hik, he⟩)
    · simp at hx
    · have hieq : i = k := by omega
      subst hieq
      exact he.2.1 hki
  have hpath : k ∉ (newHandler p fn).Path.map pathParams.N := by
    rw [show (newHandler p fn).Path = (classifyArgs p 0 fn.InTypes
      ⟨p, fn, false, fn.PruneIn [argTypeRequest, argTypeResponseWriter], [], [], [], []⟩).Path
      from rfl]
    rw [classifyArgs_PathN_mem]
    rintro (hx | ⟨i, hi, hik, he⟩)
    · simp at hx
    · have hieq : i = k := by omega
      subst hieq
      exact he.2.1 hki
  refine ⟨hform, hjson, hquery, hpath, ?_⟩
  intro req ok res
  refine ⟨?_, ?_, ?_, ?_⟩
  · intro pr hm heq
    have h1 := bodyStep_jsonDecodes_mem (newHandler p fn) req ok res pr hm
    rw [heq] at h1
    exact hjson h1
  · intro pr hm heq
    have h1 := bodyStep_formWrites_mem (newHandler p fn) req ok res pr hm
    rw [heq] at h1
    exact hform h1
  · intro pr hm heq
    have h1 := serveHTTP_pathWrites_mem (newHandler p fn) req ok res pr hm
    rw [heq] at h1
    exact hpath h1
  · intro pr hm heq
    have h1 := serveHTTP_queryWrites_mem (newHandler p fn) req ok res pr hm
    rw [heq] at h1
    exact hquery h1

/-- Function with one interface-kind parameter, for the C10 witness. -/
def fnIface : Func := ⟨[argTypeResponseWriter], []⟩

theorem C10_interface_params_excluded_witness :
    0 ∉ (newHandler polyNone fnIface).Form ∧ 0 ∉ (newHandler polyNone fnIface).JSON ∧
    0 ∉ (newHandler polyNone fnIface).Query ∧
    0 ∉ (newHandler polyNone fnIface).Path.map pathParams.N ∧
    ∀ (req : Request) (ok : Nat → String → Bool) (res : CallResult),
      (∀ pr ∈ (serveHTTP (newHandler polyNone fnIface) req ok res).jsonDecodes, pr.1 ≠ 0) ∧
      (∀ pr ∈ (serveHTTP (newHandler polyNone fnIface) req ok res).formWrites, pr.1 ≠ 0) ∧
      (∀ pr ∈ (serveHTTP (newHandler polyNone fnIface) req ok res).pathWrites, pr.1 ≠ 0) ∧
      (∀ pr ∈ (serveHTTP (newHandler polyNone fnIface) req ok res).queryWrites, pr.1 ≠ 0) :=
  C10_interface_params_excluded polyNone fnIface 0 (by decide) (by decide)

end PolySpec
